import Mathlib

/-!
# A shallow embedding of `main.go` (in-memory user registration over fiber)

The Go program is one file.  Its own functions (`Validate`, `GenerateUUID`, the
middlewares and the five route handlers registered in `main`) are translated
definition by definition.  The library calls they make (`validator.Struct`,
`uuid.Parse`, `hex.EncodeToString`, `rand.Read`, `ctx.BodyParser`, fiber routing,
the `recover` middleware and fiber's default error handler) are modelled by the
small functions marked "library model" below.

Conventions.
* A Go slice is `GoSlice α = Option (List α)`; `none` is the `nil` slice.
* Go strings are Lean strings; `len(s)` is the UTF-8 byte count (`goBytes`),
  the validator's string length is the rune count (`String.length`).
* `int32` values are `Int`; the conversion `int32(x)` is `toInt32`.
* The process-wide variable `userCreateResponseList` is threaded explicitly.
* `rand.Read` is an input of the model: either an error or the 16 bytes read.
-/

namespace ForincaDev

/-! ## Go slices and machine integers -/

/-- A Go slice value: `none` is `nil`, `some l` a non-nil slice holding `l`. -/
abbrev GoSlice (α : Type) := Option (List α)

/-- Go `len(s)`. -/
def goLen {α : Type} (s : GoSlice α) : Nat :=
  match s with
  | none => 0
  | some l => l.length

/-- Go `append(s, x)`: the result is never `nil`. -/
def goAppend {α : Type} (s : GoSlice α) (x : α) : GoSlice α :=
  match s with
  | none => some [x]
  | some l => some (l ++ [x])

/-- The elements of a slice, in order. -/
def goElems {α : Type} (s : GoSlice α) : List α :=
  match s with
  | none => []
  | some l => l

/-- Go conversion `int32(x)`: wrap into the range `[-2^31, 2^31)`. -/
def toInt32 (x : Int) : Int := (x + 2147483648) % 4294967296 - 2147483648

/-- Values representable in a Go `int32`. -/
def inInt32 (x : Int) : Bool := decide (-2147483648 ≤ x) && decide (x ≤ 2147483647)

/-! ## Data model (main.go lines 14-53) -/

/-- Go `ErrorDetailResponse`. -/
structure ErrorDetailResponse where
  FieldName : String
  Description : String
deriving DecidableEq, Repr

/-- Go `ErrorResponse`. -/
structure ErrorResponse where
  Status : Int
  ErrorDetailResponse : GoSlice ErrorDetailResponse
deriving DecidableEq, Repr

/-- Go `UserCreateRequest`. -/
structure UserCreateRequest where
  FirstName : String
  LastName : String
  Email : String
  Password : String
  Age : Int
deriving DecidableEq, Repr

/-- Go `UserCreateResponse`. -/
structure UserCreateResponse where
  UID : String
  FirstName : String
  LastName : String
  Email : String
  Age : Int
deriving DecidableEq, Repr

/-- Go `UserResponseList`. -/
structure UserResponseList where
  UserCreateResponse : GoSlice UserCreateResponse
  Count : Int
deriving DecidableEq, Repr

/-- The dynamic value of a validated field (`interface{}` in Go): the request
struct only has `string` and `int32` fields. -/
inductive Value where
  | str (s : String)
  | int (i : Int)
deriving DecidableEq, Repr

/-- Go `CustomValidationError`. -/
structure CustomValidationError where
  HasError : Bool
  Field : String
  Tag : String
  Param : String
  Value : Value
deriving DecidableEq, Repr

/-! ## Library model: go-playground/validator -/

/-- The validation tags that occur in the `validate:"..."` struct tags of
`UserCreateRequest`, with their parameter. -/
inductive VTag where
  | required
  | min (n : Nat)
  | max (n : Nat)
  | acceptAge
deriving DecidableEq, Repr

/-- Tag name as reported by `fieldError.Tag()`. -/
def VTag.name : VTag → String
  | .required => "required"
  | .min _ => "min"
  | .max _ => "max"
  | .acceptAge => "acceptAge"

/-- Tag parameter as reported by `fieldError.Param()` (the text after `=`). -/
def VTag.param : VTag → String
  | .required => ""
  | .min n => toString n
  | .max n => toString n
  | .acceptAge => ""

/-- The custom rule registered in `main` (lines 96-98):
`fl.Field().Int() >= 18`.  It is attached to the `int32` field only; on a
string `reflect.Value.Int` would not return, which is rendered as failure. -/
def acceptAge : Value → Bool
  | .int i => decide (18 ≤ i)
  | .str _ => false

/-- Library model: does value `v` satisfy the tag?  `required` rejects the zero
value, `min`/`max` compare the rune count of a string (the number itself for
an integer), `acceptAge` is the registered custom rule. -/
def VTag.holds : VTag → Value → Bool
  | .required, .str s => decide (s ≠ "")
  | .required, .int i => decide (i ≠ 0)
  | .min n, .str s => decide (n ≤ s.length)
  | .min n, .int i => decide ((n : Int) ≤ i)
  | .max n, .str s => decide (s.length ≤ n)
  | .max n, .int i => decide (i ≤ (n : Int))
  | .acceptAge, v => ForincaDev.acceptAge v

/-- A struct field as the validator sees it: Go field name, its tags in the
order written, and the current value. -/
structure VField where
  name : String
  tags : List VTag
  value : Value
deriving DecidableEq, Repr

/-- The fields of `UserCreateRequest` in declaration order with the tags of
their `validate:"..."` annotations (lines 27-31). -/
def userCreateRequestFields (r : UserCreateRequest) : List VField :=
  [ { name := "FirstName", tags := [.required, .min 2], value := .str r.FirstName },
    { name := "LastName", tags := [.required], value := .str r.LastName },
    { name := "Email", tags := [.required], value := .str r.Email },
    { name := "Password", tags := [.required, .min 8, .max 16], value := .str r.Password },
    { name := "Age", tags := [.required, .acceptAge], value := .int r.Age } ]

/-- What the source reads off one `validator.FieldError`. -/
structure FieldError where
  field : String
  tag : String
  param : String
  value : Value
deriving DecidableEq, Repr

/-- Library model of the validator's per-field loop: the tags are tried in
order and the walk of this field stops at the first tag that fails, which
is the only one reported. -/
def traverseField (name : String) (v : Value) : List VTag → Option FieldError
  | [] => none
  | t :: ts =>
    if t.holds v then traverseField name v ts
    else some { field := name, tag := t.name, param := t.param, value := v }

/-- Library model of `validate.Struct`: the fields are visited in declaration
order and the reported errors are collected in that order. -/
def validateStruct (fields : List VField) : List FieldError :=
  fields.filterMap (fun f => traverseField f.name f.value f.tags)

/-! ## `Validate` (main.go lines 57-73) -/

/-- The loop body of `Validate`: copy one field error and append it. -/
def validateLoop (acc : GoSlice CustomValidationError) (fe : FieldError) :
    GoSlice CustomValidationError :=
  goAppend acc
    { HasError := true, Field := fe.field, Tag := fe.tag, Param := fe.param, Value := fe.value }

/-- Go `Validate`: `validate.Struct` returns a nil error when nothing failed,
and then the declared-but-never-assigned nil slice is returned. -/
def Validate (data : UserCreateRequest) : GoSlice CustomValidationError :=
  let errors := validateStruct (userCreateRequestFields data)
  if errors = [] then none
  else errors.foldl validateLoop none

/-! ## `GenerateUUID` (main.go lines 75-86) -/

/-- One lowercase hexadecimal digit. -/
def hexDigit (n : Nat) : Char :=
  "0123456789abcdef".toList.getD n '0'

/-- Library model of `hex.EncodeToString`: two lowercase digits per byte. -/
def hexEncode : List (Fin 256) → List Char
  | [] => []
  | b :: bs => hexDigit (b.val / 16) :: hexDigit (b.val % 16) :: hexEncode bs

/-- The 16-byte buffer `u` after a successful `rand.Read`. -/
abbrev Bytes16 := Fin 16 → Fin 256

/-- The outcome of `rand.Read(u)`: `none` for an error, else the bytes read. -/
abbrev RandRead := Option Bytes16

/-- Line 82: `u[8] = (u[8] | 0x80) & 0xBF`. -/
def maskByte8 (b : Fin 256) : Fin 256 := (b ||| 0x80) &&& 0xBF

/-- Line 83: `u[6] = (u[6] | 0x40) & 0x4F`. -/
def maskByte6 (b : Fin 256) : Fin 256 := (b ||| 0x40) &&& 0x4F

/-- The buffer after the two assignments of lines 82-83. -/
def maskUUID (u : Bytes16) : Bytes16 :=
  let u1 := Function.update u 8 (maskByte8 (u 8))
  Function.update u1 6 (maskByte6 (u1 6))

/-- Go `GenerateUUID`. -/
def GenerateUUID (rnd : RandRead) : String :=
  match rnd with
  | none => ""
  | some u => String.mk (hexEncode (List.ofFn (maskUUID u)))

/-! ## Library model: google/uuid `Parse` -/

/-- The bytes of a Go string holding the UTF-8 encoding of one character. -/
def utf8Bytes (c : Char) : List Nat :=
  let n := c.toNat
  if n < 128 then [n]
  else if n < 2048 then [192 + n / 64, 128 + n % 64]
  else if n < 65536 then [224 + n / 4096, 128 + n / 64 % 64, 128 + n % 64]
  else [240 + n / 262144, 128 + n / 4096 % 64, 128 + n / 64 % 64, 128 + n % 64]

/-- The bytes of a Go string; `len(s)` is the length of this list. -/
def goBytes (s : String) : List Nat :=
  s.toList.flatMap utf8Bytes

/-- Value of one hexadecimal digit byte, if it is one (either case). -/
def hexVal (b : Nat) : Option Nat :=
  if 48 ≤ b ∧ b ≤ 57 then some (b - 48)
  else if 97 ≤ b ∧ b ≤ 102 then some (b - 87)
  else if 65 ≤ b ∧ b ≤ 70 then some (b - 55)
  else none

/-- Library `xtob`: two hexadecimal digit bytes to one byte. -/
def xtob (x1 x2 : Nat) : Option Nat :=
  match hexVal x1, hexVal x2 with
  | some h, some l => some (16 * h + l)
  | _, _ => none

/-- The byte at index `i` (0 beyond the end, which the callers exclude). -/
def byteAt (s : List Nat) (i : Nat) : Nat := s.getD i 0

/-- ASCII lower-casing of a byte. -/
def lowerByte (b : Nat) : Nat := if 65 ≤ b ∧ b ≤ 90 then b + 32 else b

/-- The tail of `uuid.Parse` for the dashed form: dashes at 8, 13, 18 and 23 and
a pair of hexadecimal digits at each of the sixteen offsets. -/
def parseDashed (s : List Nat) : Bool :=
  if byteAt s 8 ≠ 45 ∨ byteAt s 13 ≠ 45 ∨ byteAt s 18 ≠ 45 ∨ byteAt s 23 ≠ 45 then false
  else [0, 2, 4, 6, 9, 11, 14, 16, 19, 21, 24, 26, 28, 30, 32, 34].all
    (fun x => (xtob (byteAt s x) (byteAt s (x + 1))).isSome)

/-- Library model of `uuid.Parse`, reduced to whether it returns a nil error.
By length: 36 is the dashed form, 45 the same after `urn:uuid:` (any case),
38 the dashed form between two enclosing bytes, 32 plain hexadecimal. -/
def uuidParse (str : String) : Bool :=
  let s := goBytes str
  if s.length = 36 then parseDashed s
  else if s.length = 45 then
    if (s.take 9).map lowerByte = goBytes "urn:uuid:" then parseDashed (s.drop 9) else false
  else if s.length = 38 then parseDashed (s.drop 1)
  else if s.length = 32 then
    (List.range 16).all (fun i => (xtob (byteAt s (2 * i)) (byteAt s (2 * i + 1))).isSome)
  else false

/-! ## Requests, responses and outcomes -/

/-- HTTP method of a request. -/
inductive Method where
  | GET
  | HEAD
  | POST
  | other (name : String)
deriving DecidableEq, Repr

/-- The text of a method as it appears in messages. -/
def Method.text : Method → String
  | .GET => "GET"
  | .HEAD => "HEAD"
  | .POST => "POST"
  | .other n => n

/-- A JSON object body: each member of `UserCreateRequest` may be absent. -/
structure JsonUser where
  firstName : Option String
  lastName : Option String
  email : Option String
  password : Option String
  age : Option Int
deriving DecidableEq, Repr

/-- A request body as `ctx.BodyParser` classifies it. -/
inductive Body where
  | unsupported
  | undecodable (msg : String)
  | json (j : JsonUser)
deriving DecidableEq, Repr

/-- An inbound request: method, path, the `X-CorrelationId` header (absent or
its value) and the body. -/
structure Request where
  method : Method
  path : String
  correlationId : Option String
  body : Body
deriving DecidableEq, Repr

/-- What a handler wrote with `SendString` or `JSON`. -/
inductive RespBody where
  | text (s : String)
  | jsonString (s : String)
  | jsonUser (u : UserCreateResponse)
  | jsonUserList (l : UserResponseList)
  | jsonError (e : ErrorResponse)
deriving DecidableEq, Repr

/-- An HTTP response: status code and body. -/
structure Response where
  status : Nat
  body : RespBody
deriving DecidableEq, Repr

/-- The member names of the JSON object a body is marshalled to (the `json`
struct tags of lines 14-45); a JSON string or plain text has none. -/
def RespBody.jsonKeys : RespBody → List String
  | .text _ => []
  | .jsonString _ => []
  | .jsonUser _ => ["uid", "firstName", "lastName", "email", "age"]
  | .jsonUserList _ => ["data", "count"]
  | .jsonError _ => ["status", "errorDetail"]

/-- A non-nil Go `error` returned by a handler: a `*fiber.Error` carrying a
status code, or any other error. -/
inductive GoError where
  | fiber (code : Nat) (msg : String)
  | plain (msg : String)
deriving DecidableEq, Repr

/-- How a handler invocation ends: it wrote a response and returned nil, it
returned an error, or it panicked. -/
inductive Result where
  | sent (r : Response)
  | failed (e : GoError)
  | panicked (msg : String)
deriving DecidableEq, Repr

/-- The process-wide `userCreateResponseList` (line 88), initially nil. -/
abbrev Store := GoSlice UserCreateResponse

/-- The value of `userCreateResponseList` at process start. -/
def initialStore : Store := none

/-! ## Library model: `ctx.BodyParser` -/

/-- Library model of `ctx.BodyParser(&request)` into a zero-valued struct:
an unknown content type is fiber's 422 error, a decoder failure is passed
on, absent members keep the zero value, and a number outside `int32` is a
decoder failure. -/
def BodyParser (b : Body) : Except GoError UserCreateRequest :=
  match b with
  | .unsupported => .error (.fiber 422 "Unprocessable Entity")
  | .undecodable msg => .error (.plain msg)
  | .json j =>
    let age := j.age.getD 0
    if inInt32 age then
      .ok { FirstName := j.firstName.getD "", LastName := j.lastName.getD "",
            Email := j.email.getD "", Password := j.password.getD "", Age := age }
    else
      .error (.plain ("json: cannot unmarshal number " ++ toString age ++
        " into Go struct field UserCreateRequest.age of type int32"))

/-! ## Middlewares (main.go lines 100-131) -/

/-- The logging middleware (lines 101-109): prints and calls `ctx.Next()`. -/
def loggerMw (next : Result × Store) : Result × Store := next

/-- The `/user` middleware (lines 112-128).  `ctx.Get` yields the empty string
for an absent header; `ctx.Locals` has no reader downstream. -/
def correlationMw (req : Request) (s : Store) (next : Result × Store) : Result × Store :=
  let correlationId := req.correlationId.getD ""
  if correlationId = "" then
    (.sent { status := 400, body := .jsonString "You have to send correlationId" }, s)
  else if uuidParse correlationId = false then
    (.sent { status := 400, body := .jsonString "CorrelationId is must be guid" }, s)
  else next

/-- Library model of fiber's `recover` middleware (line 131): a panic below it
becomes the returned error `fmt.Errorf("%v", r)`. -/
def recoverMw (next : Result × Store) : Result × Store :=
  match next with
  | (.panicked msg, s) => (.failed (.plain msg), s)
  | r => r

/-- Library model of fiber's default error handler: the code of a
`*fiber.Error`, 500 for any other error, and the message as plain text. -/
def defaultErrorHandler (e : GoError) : Response :=
  match e with
  | .fiber code msg => { status := code, body := .text msg }
  | .plain msg => { status := 500, body := .text msg }

/-! ## Route handlers (main.go lines 134-208) -/

/-- The handler of `GET /panic` (lines 134-139). -/
def panicHandler (s : Store) : Result × Store :=
  (.panicked "The app was crashing!!!", s)

/-- The handler of `GET /` (lines 141-145). -/
def rootHandler (s : Store) : Result × Store :=
  (.sent { status := 200, body := .text "hello my first get endpoint" }, s)

/-- The handler of `GET /user/:userId` (lines 147-153). -/
def getUserById (s : Store) (userIdParam : String) : Result × Store :=
  (.sent { status := 200, body := .text ("User id is " ++ userIdParam) }, s)

/-- The loop of lines 172-178: one `ErrorDetailResponse` per validation error. -/
def errorDetailLoop (acc : GoSlice ErrorDetailResponse) (validationError : CustomValidationError) :
    GoSlice ErrorDetailResponse :=
  goAppend acc
    { FieldName := validationError.Field,
      Description := validationError.Field ++ " field has an error because of that tag " ++
        validationError.Tag }

/-- Lines 170-182: the 400 response built from the validation errors. -/
def validationFailure (s : Store) (errors : List CustomValidationError) : Result × Store :=
  let errorDetailResponseList := errors.foldl errorDetailLoop none
  (.sent { status := 400,
           body := .jsonError { Status := 400, ErrorDetailResponse := errorDetailResponseList } }, s)

/-- Lines 185-195: build the record, append it to the store, answer 200. -/
def createUser (s : Store) (request : UserCreateRequest) (rnd : RandRead) : Result × Store :=
  let userCreateResponse : UserCreateResponse :=
    { UID := GenerateUUID rnd, FirstName := request.FirstName, LastName := request.LastName,
      Email := request.Email, Age := request.Age }
  (.sent { status := 200, body := .jsonUser userCreateResponse }, goAppend s userCreateResponse)

/-- The handler of `POST /user` (lines 155-196).  The test of line 169 is
`errors != nil && errors[0].HasError`; indexing a non-nil empty slice panics. -/
def postUser (s : Store) (req : Request) (rnd : RandRead) : Result × Store :=
  match BodyParser req.body with
  | .error err => (.failed err, s)
  | .ok request =>
    match Validate request with
    | none => createUser s request rnd
    | some [] => (.panicked "runtime error: index out of range [0] with length 0", s)
    | some (e :: es) =>
      if e.HasError then validationFailure s (e :: es)
      else createUser s request rnd

/-- The handler of `GET /user` (lines 198-208); the guard is
`userCreateResponseList == nil && len(userCreateResponseList) == 0`. -/
def getUsers (s : Store) : Result × Store :=
  if s.isNone && decide (goLen s = 0) then
    (.sent { status := 404, body := .jsonString "There is no user" }, s)
  else
    (.sent { status := 200,
             body := .jsonUserList { UserCreateResponse := s, Count := toInt32 (goLen s) } }, s)

/-! ## Library model: fiber routing -/

/-- Strip every trailing slash. -/
def trimRightSlash (p : List Char) : List Char :=
  (p.reverse.dropWhile (fun c => c == '/')).reverse

/-- Library model of the path fiber matches routes on under the default
configuration: ASCII lower case, and without trailing slashes when the path is
longer than one character. -/
def detectionPath (path : String) : List Char :=
  let l := path.toList.map Char.toLower
  if 1 < l.length then trimRightSlash l else l

/-- Remove a leading `pre` from `l`, if `l` starts with it. -/
def dropStart (pre l : List Char) : Option (List Char) :=
  match pre, l with
  | [], l => some l
  | _ :: _, [] => none
  | a :: as, b :: bs => if a = b then dropStart as bs else none

/-- Library model of prefix matching for middleware registered with
`app.Use("/user", ...)`: the detection path starts with the prefix. -/
def underUser (path : String) : Bool :=
  (dropStart "/user".toList (detectionPath path)).isSome

/-- Library model of matching `/user/:userId`: after `/user/` there is exactly
one non-empty segment; the parameter is read from the path as sent. -/
def userIdParam (path : String) : Option String :=
  match dropStart "/user/".toList (detectionPath path) with
  | none => none
  | some seg =>
    if seg ≠ [] ∧ ¬ '/' ∈ seg then
      some (String.mk ((path.toList.drop 6).take seg.length))
    else none

/-- The route handlers registered in `main`. -/
inductive Route where
  | panic
  | root
  | userById (userId : String)
  | userCreate
  | userList
deriving DecidableEq, Repr

/-- The first `app.Get` route (registration order of lines 134-208) matching
the path; `app.Get` serves `GET` and `HEAD`. -/
def matchGet (path : String) : Option Route :=
  if detectionPath path = "/panic".toList then some .panic
  else if detectionPath path = "/".toList then some .root
  else match userIdParam path with
    | some userId => some (.userById userId)
    | none => if detectionPath path = "/user".toList then some .userList else none

/-- The `app.Post` route matching the path. -/
def matchPost (path : String) : Option Route :=
  if detectionPath path = "/user".toList then some .userCreate else none

/-- The route a request is dispatched to, if any. -/
def matchRoute (m : Method) (path : String) : Option Route :=
  match m with
  | .GET => matchGet path
  | .HEAD => matchGet path
  | .POST => matchPost path
  | .other _ => none

/-- Library `html.EscapeString`. -/
def htmlEscape (s : String) : String :=
  String.mk (s.toList.flatMap (fun c =>
    if c = '<' then "&lt;".toList
    else if c = '>' then "&gt;".toList
    else if c = '&' then "&amp;".toList
    else if c = Char.ofNat 39 then "&#39;".toList
    else if c = Char.ofNat 34 then "&#34;".toList
    else [c]))

/-- Library model of an unrouted request: 405 when the path has a route under
another method, else 404. -/
def unrouted (m : Method) (path : String) : GoError :=
  if (matchGet path).isSome || (matchPost path).isSome then .fiber 405 "Method Not Allowed"
  else .fiber 404 ("Cannot " ++ m.text ++ " " ++ htmlEscape path)

/-- Run the handler registered for a route. -/
def runRoute (r : Route) (s : Store) (req : Request) (rnd : RandRead) : Result × Store :=
  match r with
  | .panic => panicHandler s
  | .root => rootHandler s
  | .userById userId => getUserById s userId
  | .userCreate => postUser s req rnd
  | .userList => getUsers s

/-- Dispatch to the matched route; without one, fiber returns its routing error. -/
def routes (s : Store) (req : Request) (rnd : RandRead) : Result × Store :=
  match matchRoute req.method req.path with
  | some r => runRoute r s req rnd
  | none => (.failed (unrouted req.method req.path), s)

/-- The handler stack in registration order: logger, the `/user` middleware
where its prefix matches, `recover`, then the routes. -/
def handle (s : Store) (req : Request) (rnd : RandRead) : Result × Store :=
  loggerMw
    (if underUser req.path then correlationMw req s (recoverMw (routes s req rnd))
     else recoverMw (routes s req rnd))

/-- The end of a request: a written response is sent, a returned error goes
through the default error handler, and a panic that no middleware recovered
ends the process (`none`). -/
def respond (out : Result × Store) : Option (Response × Store) :=
  match out with
  | (.sent r, s1) => some (r, s1)
  | (.failed e, s1) => some (defaultErrorHandler e, s1)
  | (.panicked _, _) => none

/-- One request served by the process. -/
def serve (s : Store) (req : Request) (rnd : RandRead) : Option (Response × Store) :=
  respond (handle s req rnd)

/-- Serve a sequence of requests one after the other, collecting the responses. -/
def serveAll (s : Store) : List (Request × RandRead) → Option (List Response × Store)
  | [] => some ([], s)
  | (req, rnd) :: rest =>
    match serve s req rnd with
    | none => none
    | some (resp, s1) =>
      match serveAll s1 rest with
      | none => none
      | some (resps, s2) => some (resp :: resps, s2)

/-- Store states reachable from process start by serving requests. -/
inductive Reachable : Store → Prop where
  | start : Reachable initialStore
  | step {s s1 : Store} {req : Request} {rnd : RandRead} {resp : Response} :
      Reachable s → serve s req rnd = some (resp, s1) → Reachable s1

/-! ## Named requests and the two readings of the validation contract -/

/-- A `POST /user` request with the given correlation header and body. -/
def postUserRequest (correlationId : Option String) (body : Body) : Request :=
  { method := .POST, path := "/user", correlationId := correlationId, body := body }

/-- A `GET /user` request with the given correlation header and body. -/
def getUsersRequest (correlationId : Option String) (body : Body) : Request :=
  { method := .GET, path := "/user", correlationId := correlationId, body := body }

/-- The violation that a failing tag of a field is reported as. -/
def violationOf (f : VField) (t : VTag) : CustomValidationError :=
  { HasError := true, Field := f.name, Tag := t.name, Param := t.param, Value := f.value }

/-- The declared constraints of a field that its value fails, in tag order. -/
def failingTags (f : VField) : List VTag :=
  f.tags.filter (fun t => !t.holds f.value)

/-- The specification's reading of the validation contract: one violation for
each declared constraint that fails, fields in declaration order. -/
def violationsPerConstraint (r : UserCreateRequest) : List CustomValidationError :=
  (userCreateRequestFields r).flatMap (fun f => (failingTags f).map (violationOf f))

/-- The per-field reading: for each field with a failing constraint, one
violation for the first failing constraint, fields in declaration order. -/
def firstViolationPerField (r : UserCreateRequest) : List CustomValidationError :=
  (userCreateRequestFields r).filterMap (fun f => (failingTags f).head?.map (violationOf f))

/-- The `ErrorDetailResponse` that lines 173-175 build from one violation. -/
def detailOf (ve : CustomValidationError) : ErrorDetailResponse :=
  { FieldName := ve.Field,
    Description := ve.Field ++ " field has an error because of that tag " ++ ve.Tag }

/-- The violation that `Validate` builds from one field error (lines 61-66). -/
def customOf (fe : FieldError) : CustomValidationError :=
  { HasError := true, Field := fe.field, Tag := fe.tag, Param := fe.param, Value := fe.value }

/-! ## Sample data -/

/-- A correlation id in the dashed form. -/
def sampleGuid : String := "3fa85f64-5717-4562-b3fc-2c963f66afa6"

/-- A body that passes every declared constraint. -/
def sampleJson : JsonUser :=
  { firstName := some "Cem", lastName := some "Akar", email := some "cem@example.com",
    password := some "s3cretpass", age := some 30 }

/-- The payload `sampleJson` is bound to. -/
def samplePayload : UserCreateRequest :=
  { FirstName := "Cem", LastName := "Akar", Email := "cem@example.com",
    Password := "s3cretpass", Age := 30 }

/-- A body like `sampleJson` whose email is empty. -/
def noEmailJson : JsonUser :=
  { firstName := some "Cem", lastName := some "Akar", email := some "",
    password := some "s3cretpass", age := some 30 }

/-- A body like `sampleJson` without the `firstName` member. -/
def noFirstNameJson : JsonUser :=
  { firstName := none, lastName := some "Akar", email := some "cem@example.com",
    password := some "s3cretpass", age := some 30 }

/-- A body like `sampleJson` with age 17. -/
def underageJson : JsonUser :=
  { firstName := some "Cem", lastName := some "Akar", email := some "cem@example.com",
    password := some "s3cretpass", age := some 17 }

/-- A successful `rand.Read`: every byte is 7. -/
def sampleBytes : Bytes16 := fun _ => 7

/-- The record created from `sampleJson` with `sampleBytes`. -/
def sampleRecord : UserCreateResponse :=
  { UID := "07070707070747078707070707070707", FirstName := "Cem", LastName := "Akar",
    Email := "cem@example.com", Age := 30 }

/-- The record created from `sampleJson` when `rand.Read` fails. -/
def sampleRecordNoUid : UserCreateResponse :=
  { UID := "", FirstName := "Cem", LastName := "Akar", Email := "cem@example.com", Age := 30 }

/-- The payload with every string empty and age zero. -/
def zeroPayload : UserCreateRequest :=
  { FirstName := "", LastName := "", Email := "", Password := "", Age := 0 }

/-- The request and `rand.Read` outcome of one `POST /user` of a sequence, given
as correlation header, body and random outcome. -/
def postOf (i : Option String × Body × RandRead) : Request × RandRead :=
  (postUserRequest i.1 i.2.1, i.2.2)

/-- One sample creation: valid header, valid body, successful `rand.Read`. -/
def sampleInput : Option String × Body × RandRead :=
  (some sampleGuid, .json sampleJson, some sampleBytes)

/-- The response to a sample creation. -/
def sampleCreated : Response :=
  { status := 200, body := .jsonUser sampleRecord }

/-- The store after `n` sample creations (for `n` at least 1). -/
def recordsOf (n : Nat) : Store := some (List.replicate n sampleRecord)

/-! ## Basic facts -/

theorem goLen_goAppend {α : Type} (s : GoSlice α) (x : α) :
    goLen (goAppend s x) = goLen s + 1 := by
  cases s <;> simp [goLen, goAppend]

theorem goElems_goAppend {α : Type} (s : GoSlice α) (x : α) :
    goElems (goAppend s x) = goElems s ++ [x] := by
  cases s <;> simp [goElems, goAppend]

theorem goAppend_eq_some {α : Type} (s : GoSlice α) (x : α) :
    goAppend s x = some (goElems s ++ [x]) := by
  cases s <;> simp [goElems, goAppend]

theorem foldl_goAppend {α β : Type} (f : β → α) (l : List β) (acc : GoSlice α) (h : l ≠ []) :
    l.foldl (fun a x => goAppend a (f x)) acc = some (goElems acc ++ l.map f) := by
  induction l generalizing acc with
  | nil => exact absurd rfl h
  | cons x xs ih =>
    cases xs with
    | nil => simp [goAppend_eq_some]
    | cons y ys =>
      rw [List.foldl_cons, ih (goAppend acc (f x)) (by simp)]
      simp [goElems_goAppend]

theorem toInt32_of_lt (n : Nat) (h : n < 2147483648) : toInt32 (n : Int) = (n : Int) := by
  unfold toInt32
  omega

theorem Validate_eq (r : UserCreateRequest) :
    Validate r =
      if validateStruct (userCreateRequestFields r) = [] then none
      else some ((validateStruct (userCreateRequestFields r)).map customOf) := by
  unfold Validate
  by_cases h : validateStruct (userCreateRequestFields r) = []
  · simp [h]
  · simp only [h, if_false]
    have := foldl_goAppend customOf (validateStruct (userCreateRequestFields r)) none h
    simpa [validateLoop, customOf, goElems] using this

theorem errorDetailLoop_foldl (l : List CustomValidationError) (h : l ≠ []) :
    l.foldl errorDetailLoop none = some (l.map detailOf) := by
  have := foldl_goAppend detailOf l none h
  simpa [goElems] using this

theorem postUser_of_errors (s : Store) (req : Request) (rnd : RandRead) (p : UserCreateRequest)
    (hb : BodyParser req.body = .ok p) (he : validateStruct (userCreateRequestFields p) ≠ []) :
    postUser s req rnd =
      (.sent { status := 400,
               body := .jsonError
                 { Status := 400,
                   ErrorDetailResponse :=
                     some (((validateStruct (userCreateRequestFields p)).map customOf).map detailOf) } },
       s) := by
  unfold postUser
  rw [hb]
  simp only [Validate_eq, he, if_false]
  cases hl : validateStruct (userCreateRequestFields p) with
  | nil => exact absurd hl he
  | cons fe fes =>
    have hne : (customOf fe :: fes.map customOf) ≠ [] := by simp
    simp only [List.map_cons, validationFailure, errorDetailLoop_foldl _ hne]
    simp [customOf]

theorem postUser_of_no_errors (s : Store) (req : Request) (rnd : RandRead) (p : UserCreateRequest)
    (hb : BodyParser req.body = .ok p) (he : validateStruct (userCreateRequestFields p) = []) :
    postUser s req rnd = createUser s p rnd := by
  unfold postUser
  rw [hb]
  simp [Validate_eq, he]

theorem correlationMw_of_parse (req : Request) (s : Store) (next : Result × Store) (hdr : String)
    (hc : req.correlationId = some hdr) (hp : uuidParse hdr = true) :
    correlationMw req s next = next := by
  have hne : hdr ≠ "" := by
    rintro rfl
    revert hp
    decide
  simp [correlationMw, hc, hne, hp]

theorem handle_postUser (s : Store) (hdr : String) (body : Body) (rnd : RandRead)
    (hp : uuidParse hdr = true) :
    handle s (postUserRequest (some hdr) body) rnd =
      recoverMw (postUser s (postUserRequest (some hdr) body) rnd) := by
  have hu : underUser "/user" = true := by decide
  have hm : matchRoute .POST "/user" = some .userCreate := by decide
  simp only [handle, loggerMw, postUserRequest, hu, if_true, routes, hm, runRoute]
  exact correlationMw_of_parse _ s _ hdr rfl hp

theorem handle_getUsers (s : Store) (hdr : String) (body : Body) (rnd : RandRead)
    (hp : uuidParse hdr = true) :
    handle s (getUsersRequest (some hdr) body) rnd = getUsers s := by
  have hu : underUser "/user" = true := by decide
  have hm : matchRoute .GET "/user" = some .userList := by decide
  simp only [handle, loggerMw, getUsersRequest, hu, if_true, routes, hm, runRoute]
  rw [correlationMw_of_parse _ s _ hdr rfl hp]
  cases s <;> rfl

theorem serve_getUsers (s : Store) (hdr : String) (body : Body) (rnd : RandRead)
    (hp : uuidParse hdr = true) :
    serve s (getUsersRequest (some hdr) body) rnd =
      some (if goLen s = 0 ∧ s = none then
              { status := 404, body := .jsonString "There is no user" }
            else
              { status := 200,
                body := .jsonUserList { UserCreateResponse := s, Count := toInt32 (goLen s) } },
            s) := by
  unfold serve
  rw [handle_getUsers s hdr body rnd hp]
  cases s with
  | none => simp [getUsers, goLen, respond]
  | some l => simp [getUsers, respond]

theorem string_ne_empty_of_length (str : String) (n : Nat) (h : n + 1 ≤ str.length) : str ≠ "" := by
  rintro rfl
  simp at h

theorem hexEncode_length (l : List (Fin 256)) : (hexEncode l).length = 2 * l.length := by
  induction l with
  | nil => rfl
  | cons b bs ih => simp [hexEncode, ih]; omega

theorem GenerateUUID_length (u : Bytes16) : (GenerateUUID (some u)).length = 32 := by
  simp [GenerateUUID, String.length, hexEncode_length]

theorem validateStruct_valid (p : UserCreateRequest)
    (hFirst : 2 ≤ p.FirstName.length) (hLast : p.LastName ≠ "") (hEmail : p.Email ≠ "")
    (hPwMin : 8 ≤ p.Password.length) (hPwMax : p.Password.length ≤ 16) (hAge : 18 ≤ p.Age) :
    validateStruct (userCreateRequestFields p) = [] := by
  have h1 : p.FirstName ≠ "" := string_ne_empty_of_length _ 1 hFirst
  have h2 : p.Password ≠ "" := string_ne_empty_of_length _ 7 hPwMin
  have h3 : p.Age ≠ 0 := by omega
  simp [validateStruct, userCreateRequestFields, traverseField, VTag.holds, acceptAge,
    h1, h2, h3, hFirst, hLast, hEmail, hPwMin, hPwMax, hAge]

/-- C1 (as amended): for every store state and every `POST /user` request with a
correlation header that parses, whose body parses to a payload with first name
of at least 2 characters, non-empty last name, non-empty email, password of 8
to 16 characters and age at least 18, and for which `rand.Read` succeeds, the
response is 200, the store gains exactly the returned record, the record has the
payload's first name, last name, email and age, its JSON object has no
password member, and its uid is the 32-character (so non-empty) identifier. -/
theorem post_valid_payload_creates_user (s : Store) (hdr : String) (body : Body)
    (payload : UserCreateRequest) (u : Bytes16)
    (hHdr : uuidParse hdr = true) (hBody : BodyParser body = .ok payload)
    (hFirst : 2 ≤ payload.FirstName.length) (hLast : payload.LastName ≠ "")
    (hEmail : payload.Email ≠ "")
    (hPwMin : 8 ≤ payload.Password.length) (hPwMax : payload.Password.length ≤ 16)
    (hAge : 18 ≤ payload.Age) :
    ∃ r : UserCreateResponse,
      serve s (postUserRequest (some hdr) body) (some u) =
        some ({ status := 200, body := .jsonUser r }, goAppend s r) ∧
      r.FirstName = payload.FirstName ∧ r.LastName = payload.LastName ∧
      r.Email = payload.Email ∧ r.Age = payload.Age ∧
      ¬ "password" ∈ (RespBody.jsonUser r).jsonKeys ∧
      r.UID = GenerateUUID (some u) ∧ r.UID.length = 32 ∧ r.UID ≠ "" := by
  refine ⟨{ UID := GenerateUUID (some u), FirstName := payload.FirstName,
            LastName := payload.LastName, Email := payload.Email, Age := payload.Age },
          ?_, rfl, rfl, rfl, rfl, by simp [RespBody.jsonKeys], rfl, GenerateUUID_length u, ?_⟩
  · unfold serve
    rw [handle_postUser s hdr body (some u) hHdr,
      postUser_of_no_errors s _ (some u) payload hBody
        (validateStruct_valid payload hFirst hLast hEmail hPwMin hPwMax hAge)]
    rfl
  · exact string_ne_empty_of_length _ 31 (by rw [GenerateUUID_length u])

/-- C1 at a concrete request: the sample body with a successful `rand.Read`. -/
theorem post_valid_payload_creates_user_witness :
    (uuidParse sampleGuid = true ∧ BodyParser (.json sampleJson) = .ok samplePayload) ∧
    ∃ r : UserCreateResponse,
      serve initialStore (postUserRequest (some sampleGuid) (.json sampleJson)) (some sampleBytes) =
        some ({ status := 200, body := .jsonUser r }, goAppend initialStore r) ∧
      r.FirstName = samplePayload.FirstName ∧ r.LastName = samplePayload.LastName ∧
      r.Email = samplePayload.Email ∧ r.Age = samplePayload.Age ∧
      ¬ "password" ∈ (RespBody.jsonUser r).jsonKeys ∧
      r.UID = GenerateUUID (some sampleBytes) ∧ r.UID.length = 32 ∧ r.UID ≠ "" :=
  ⟨⟨by decide, rfl⟩,
   post_valid_payload_creates_user initialStore sampleGuid (.json sampleJson) samplePayload
     sampleBytes (by decide) rfl (by decide) (by decide) (by decide) (by decide)
     (by decide) (by decide)⟩

/-- C1 as stated fails twice.  A payload meeting every listed condition but with
an empty email is answered 400 and nothing is stored; and when `rand.Read`
fails the request is answered 200 with an empty uid. -/
theorem post_valid_payload_counterexample :
    (uuidParse sampleGuid = true ∧
      (2 ≤ "Cem".length ∧ "Akar" ≠ "" ∧ 8 ≤ "s3cretpass".length ∧ "s3cretpass".length ≤ 16 ∧
        (18 : Int) ≤ 30)) ∧
    serve initialStore (postUserRequest (some sampleGuid) (.json noEmailJson)) (some sampleBytes) =
      some ({ status := 400,
              body := .jsonError
                { Status := 400,
                  ErrorDetailResponse :=
                    some [{ FieldName := "Email",
                            Description := "Email field has an error because of that tag required" }] } },
            initialStore) ∧
    serve initialStore (postUserRequest (some sampleGuid) (.json sampleJson)) none =
      some ({ status := 200, body := .jsonUser sampleRecordNoUid }, some [sampleRecordNoUid]) ∧
    sampleRecordNoUid.UID = "" := by
  decide

theorem mem_details_of_mem_errors (p : UserCreateRequest) (fe : FieldError)
    (h : fe ∈ validateStruct (userCreateRequestFields p)) :
    ∃ d ∈ ((validateStruct (userCreateRequestFields p)).map customOf).map detailOf,
      d.FieldName = fe.field ∧
      d.Description = fe.field ++ " field has an error because of that tag " ++ fe.tag :=
  ⟨detailOf (customOf fe), List.mem_map_of_mem _ (List.mem_map_of_mem _ h), rfl, rfl⟩

theorem serve_post_of_field_error (s : Store) (hdr : String) (body : Body)
    (p : UserCreateRequest) (rnd : RandRead) (fe : FieldError)
    (hHdr : uuidParse hdr = true) (hBody : BodyParser body = .ok p)
    (h : fe ∈ validateStruct (userCreateRequestFields p)) :
    ∃ details : List ErrorDetailResponse,
      serve s (postUserRequest (some hdr) body) rnd =
        some ({ status := 400,
                body := .jsonError { Status := 400, ErrorDetailResponse := some details } }, s) ∧
      ∃ d ∈ details, d.FieldName = fe.field ∧
        d.Description = fe.field ++ " field has an error because of that tag " ++ fe.tag := by
  refine ⟨_, ?_, mem_details_of_mem_errors p fe h⟩
  unfold serve
  rw [handle_postUser s hdr body rnd hHdr,
    postUser_of_errors s _ rnd p hBody (List.ne_nil_of_mem h)]
  rfl

theorem age_error_mem (p : UserCreateRequest) (hAge : p.Age < 18) :
    ∃ fe ∈ validateStruct (userCreateRequestFields p), fe.field = "Age" ∧
      fe.value = .int p.Age ∧ fe.tag = (if p.Age = 0 then "required" else "acceptAge") := by
  by_cases h0 : p.Age = 0
  · refine ⟨{ field := "Age", tag := "required", param := "", value := .int p.Age }, ?_, rfl, rfl,
      by simp [h0]⟩
    simp [validateStruct, userCreateRequestFields, traverseField, VTag.holds, h0, VTag.name,
      VTag.param]
  · refine ⟨{ field := "Age", tag := "acceptAge", param := "", value := .int p.Age }, ?_, rfl, rfl,
      by simp [h0]⟩
    have h18 : ¬ 18 ≤ p.Age := by omega
    simp [validateStruct, userCreateRequestFields, traverseField, VTag.holds, h0, h18, acceptAge,
      VTag.name, VTag.param]

/-- C2: for every store state and every `POST /user` request with a correlation
header that parses and a body that parses to a payload with age below 18
(zero and negative ages included, the other fields arbitrary), the response is
400, nothing is stored, and the `errorDetail` list has an entry whose
`fieldName` is `Age`. -/
theorem post_underage_rejected (s : Store) (hdr : String) (body : Body)
    (payload : UserCreateRequest) (rnd : RandRead)
    (hHdr : uuidParse hdr = true) (hBody : BodyParser body = .ok payload)
    (hAge : payload.Age < 18) :
    ∃ details : List ErrorDetailResponse,
      serve s (postUserRequest (some hdr) body) rnd =
        some ({ status := 400,
                body := .jsonError { Status := 400, ErrorDetailResponse := some details } }, s) ∧
      ∃ d ∈ details, d.FieldName = "Age" := by
  obtain ⟨fe, hmem, hfield, -, -⟩ := age_error_mem payload hAge
  obtain ⟨details, hserve, d, hd, hname, -⟩ :=
    serve_post_of_field_error s hdr body payload rnd fe hHdr hBody hmem
  exact ⟨details, hserve, d, hd, hname.trans hfield⟩

/-- C2 at a concrete request: the sample body with age 17. -/
theorem post_underage_rejected_witness :
    (uuidParse sampleGuid = true ∧ (17 : Int) < 18) ∧
    ∃ details : List ErrorDetailResponse,
      serve initialStore (postUserRequest (some sampleGuid) (.json underageJson)) none =
        some ({ status := 400,
                body := .jsonError { Status := 400, ErrorDetailResponse := some details } },
              initialStore) ∧
      ∃ d ∈ details, d.FieldName = "Age" :=
  ⟨⟨by decide, by decide⟩,
   post_underage_rejected initialStore sampleGuid (.json underageJson)
     { FirstName := "Cem", LastName := "Akar", Email := "cem@example.com",
       Password := "s3cretpass", Age := 17 } none (by decide) rfl (by decide)⟩

theorem firstName_of_missing (j : JsonUser) (p : UserCreateRequest)
    (hBody : BodyParser (.json j) = .ok p) (hMissing : j.firstName = none) : p.FirstName = "" := by
  unfold BodyParser at hBody
  simp only at hBody
  split at hBody
  · injection hBody with hp
    rw [← hp, hMissing]
    rfl
  · exact absurd hBody (by simp)

theorem firstName_error_mem (p : UserCreateRequest) (h : p.FirstName = "") :
    ({ field := "FirstName", tag := "required", param := "", value := .str "" } : FieldError) ∈
      validateStruct (userCreateRequestFields p) := by
  simp [validateStruct, userCreateRequestFields, traverseField, VTag.holds, h, VTag.name,
    VTag.param]

/-- C3 (as amended): for every store state and every `POST /user` request with a
correlation header that parses and a parseable JSON body without the
`firstName` member, the response is 400, nothing is stored, and the
`errorDetail` list has an entry whose `fieldName` is the Go field name
`FirstName`, reported for the tag `required`. -/
theorem post_missing_first_name_rejected (s : Store) (hdr : String) (j : JsonUser)
    (payload : UserCreateRequest) (rnd : RandRead)
    (hHdr : uuidParse hdr = true) (hBody : BodyParser (.json j) = .ok payload)
    (hMissing : j.firstName = none) :
    ∃ details : List ErrorDetailResponse,
      serve s (postUserRequest (some hdr) (.json j)) rnd =
        some ({ status := 400,
                body := .jsonError { Status := 400, ErrorDetailResponse := some details } }, s) ∧
      ∃ d ∈ details, d.FieldName = "FirstName" ∧
        d.Description = "FirstName field has an error because of that tag required" := by
  have hmem := firstName_error_mem payload (firstName_of_missing j payload hBody hMissing)
  obtain ⟨details, hserve, d, hd, hname, hdesc⟩ :=
    serve_post_of_field_error s hdr (.json j) payload rnd _ hHdr hBody hmem
  exact ⟨details, hserve, d, hd, hname, hdesc⟩

/-- C3 at a concrete request: the sample body without `firstName`. -/
theorem post_missing_first_name_rejected_witness :
    (uuidParse sampleGuid = true ∧ noFirstNameJson.firstName = none) ∧
    ∃ details : List ErrorDetailResponse,
      serve initialStore (postUserRequest (some sampleGuid) (.json noFirstNameJson)) none =
        some ({ status := 400,
                body := .jsonError { Status := 400, ErrorDetailResponse := some details } },
              initialStore) ∧
      ∃ d ∈ details, d.FieldName = "FirstName" ∧
        d.Description = "FirstName field has an error because of that tag required" :=
  ⟨⟨by decide, rfl⟩,
   post_missing_first_name_rejected initialStore sampleGuid noFirstNameJson
     { FirstName := "", LastName := "Akar", Email := "cem@example.com",
       Password := "s3cretpass", Age := 30 } none (by decide) rfl rfl⟩

/-- C3 as stated fails on the name: for the sample body without `firstName` the
only entry of `errorDetail` has `fieldName` equal to `FirstName`, and no entry
has `fieldName` equal to `firstName`. -/
theorem post_missing_first_name_counterexample :
    serve initialStore (postUserRequest (some sampleGuid) (.json noFirstNameJson)) none =
      some ({ status := 400,
              body := .jsonError
                { Status := 400,
                  ErrorDetailResponse :=
                    some [{ FieldName := "FirstName",
                            Description :=
                              "FirstName field has an error because of that tag required" }] } },
            initialStore) ∧
    ¬ ∃ d ∈ [({ FieldName := "FirstName",
                Description := "FirstName field has an error because of that tag required" } :
              ErrorDetailResponse)],
        d.FieldName = "firstName" := by
  decide

theorem bodyParser_error_status (body : Body) (e : GoError) (h : BodyParser body = .error e) :
    (defaultErrorHandler e).status ≠ 200 := by
  unfold BodyParser at h
  cases body with
  | unsupported =>
    injection h with he
    subst he
    simp [defaultErrorHandler]
  | undecodable msg =>
    injection h with he
    subst he
    simp [defaultErrorHandler]
  | json j =>
    simp only at h
    split at h
    · exact absurd h (by simp)
    · injection h with he
      subst he
      simp [defaultErrorHandler]

/-- The outcomes of `POST /user`: a 200 response with the record appended to
the store, or another status with the store as it was. -/
theorem serve_postUser_outcome (s : Store) (correlationId : Option String) (body : Body)
    (rnd : RandRead) :
    ∃ resp s1, serve s (postUserRequest correlationId body) rnd = some (resp, s1) ∧
      ((resp.status = 200 ∧ ∃ r, resp.body = .jsonUser r ∧ s1 = goAppend s r) ∨
       (resp.status ≠ 200 ∧ s1 = s)) := by
  have hu : underUser "/user" = true := by decide
  have hm : matchRoute .POST "/user" = some .userCreate := by decide
  by_cases h1 : correlationId.getD "" = ""
  · refine ⟨{ status := 400, body := .jsonString "You have to send correlationId" }, s, ?_,
      Or.inr ⟨by decide, rfl⟩⟩
    simp [serve, handle, loggerMw, postUserRequest, hu, correlationMw, h1, respond]
  · by_cases h2 : uuidParse (correlationId.getD "") = false
    · refine ⟨{ status := 400, body := .jsonString "CorrelationId is must be guid" }, s, ?_,
        Or.inr ⟨by decide, rfl⟩⟩
      simp [serve, handle, loggerMw, postUserRequest, hu, correlationMw, h1, h2, respond]
    · have hserve : serve s (postUserRequest correlationId body) rnd =
          respond (recoverMw (postUser s (postUserRequest correlationId body) rnd)) := by
        simp [serve, handle, loggerMw, postUserRequest, hu, correlationMw, h1, h2, routes, hm,
          runRoute]
      rw [hserve]
      cases hb : BodyParser body with
      | error e =>
        refine ⟨defaultErrorHandler e, s, ?_, Or.inr ⟨bodyParser_error_status body e hb, rfl⟩⟩
        simp [postUser, postUserRequest, hb, recoverMw, respond]
      | ok p =>
        by_cases he : validateStruct (userCreateRequestFields p) = []
        · rw [postUser_of_no_errors s _ rnd p hb he]
          exact ⟨_, _, rfl, Or.inl ⟨rfl, _, rfl, rfl⟩⟩
        · rw [postUser_of_errors s _ rnd p hb he]
          exact ⟨_, _, rfl, Or.inr ⟨by simp, rfl⟩⟩

/-- C7: for every store state and every `POST /user` request (any header, body
and `rand.Read` outcome) the request is answered, and exactly one of two
outcomes holds: status 200 and the new store is the old one with exactly the
returned record appended at the end; or a status other than 200 and the store
unchanged. -/
theorem post_all_or_nothing (s : Store) (correlationId : Option String) (body : Body)
    (rnd : RandRead) :
    ∃ resp s1, serve s (postUserRequest correlationId body) rnd = some (resp, s1) ∧
      (((resp.status = 200 ∧ ∃ r, resp.body = .jsonUser r ∧ s1 = goAppend s r) ∧
          ¬ (resp.status ≠ 200 ∧ s1 = s)) ∨
       ((resp.status ≠ 200 ∧ s1 = s) ∧
          ¬ (resp.status = 200 ∧ ∃ r, resp.body = .jsonUser r ∧ s1 = goAppend s r))) := by
  obtain ⟨resp, s1, hs, h⟩ := serve_postUser_outcome s correlationId body rnd
  refine ⟨resp, s1, hs, ?_⟩
  rcases h with h | h
  · exact Or.inl ⟨h, fun h2 => h2.1 h.1⟩
  · exact Or.inr ⟨h, fun h2 => h.1 h2.1⟩

/-- C9: for every store state, `GET /panic` is answered 500 by way of the
`recover` middleware instead of ending the process (which the bare handler
would do), the store is unchanged, and a `GET /` served right after it is
answered 200 with the fixed greeting. -/
theorem panic_is_isolated (s : Store) (h1 h2 : Option String) (b1 b2 : Body)
    (r1 r2 : RandRead) :
    serve s { method := .GET, path := "/panic", correlationId := h1, body := b1 } r1 =
      some ({ status := 500, body := .text "The app was crashing!!!" }, s) ∧
    serveAll s
      [({ method := .GET, path := "/panic", correlationId := h1, body := b1 }, r1),
       ({ method := .GET, path := "/", correlationId := h2, body := b2 }, r2)] =
      some ([{ status := 500, body := .text "The app was crashing!!!" },
             { status := 200, body := .text "hello my first get endpoint" }], s) ∧
    respond (panicHandler s) = none := by
  have hu1 : underUser "/panic" = false := by decide
  have hm1 : matchRoute .GET "/panic" = some .panic := by decide
  have hu2 : underUser "/" = false := by decide
  have hm2 : matchRoute .GET "/" = some .root := by decide
  have e1 : serve s { method := .GET, path := "/panic", correlationId := h1, body := b1 } r1 =
      some ({ status := 500, body := .text "The app was crashing!!!" }, s) := by
    simp [serve, handle, loggerMw, hu1, routes, hm1, runRoute, panicHandler, recoverMw, respond,
      defaultErrorHandler]
  have e2 : serve s { method := .GET, path := "/", correlationId := h2, body := b2 } r2 =
      some ({ status := 200, body := .text "hello my first get endpoint" }, s) := by
    simp [serve, handle, loggerMw, hu2, routes, hm2, runRoute, rootHandler, recoverMw, respond]
  refine ⟨e1, ?_, rfl⟩
  simp [serveAll, e1, e2]

theorem dropStart_append (pre rest : List Char) : dropStart pre (pre ++ rest) = some rest := by
  induction pre with
  | nil => cases rest <;> rfl
  | cons a as ih => simp [dropStart, ih]

theorem eq_append_of_dropStart (pre l rest : List Char) (h : dropStart pre l = some rest) :
    l = pre ++ rest := by
  induction pre generalizing l with
  | nil =>
    cases l <;> simp [dropStart] at h <;> simp [h]
  | cons a as ih =>
    cases l with
    | nil => simp [dropStart] at h
    | cons b bs =>
      simp only [dropStart] at h
      split at h
      · rename_i hab
        rw [hab, ih bs h]
        rfl
      · exact absurd h (by simp)

theorem underUser_of_detectionPath (path : String) (h : detectionPath path = "/user".toList) :
    underUser path = true := by
  unfold underUser
  rw [h]
  decide

theorem underUser_of_userIdParam (path : String) (userId : String)
    (h : userIdParam path = some userId) : underUser path = true := by
  unfold userIdParam at h
  cases hd : dropStart "/user/".toList (detectionPath path) with
  | none =>
    rw [hd] at h
    simp at h
  | some seg =>
    have hl := eq_append_of_dropStart _ _ _ hd
    unfold underUser
    have hsplit : "/user/".toList = "/user".toList ++ ['/'] := by decide
    rw [hl, hsplit, List.append_assoc, dropStart_append]
    rfl

theorem underUser_of_matchGet (path : String) (r : Route) (h : matchGet path = some r)
    (hk : r = .userList ∨ r = .userCreate ∨ ∃ userId, r = .userById userId) :
    underUser path = true := by
  unfold matchGet at h
  split at h
  · injection h with h
    subst h
    simp at hk
  · split at h
    · injection h with h
      subst h
      simp at hk
    · split at h
      · rename_i userId hid
        exact underUser_of_userIdParam path userId hid
      · split at h
        · rename_i hd
          exact underUser_of_detectionPath path hd
        · exact absurd h (by simp)

theorem underUser_of_matchRoute (m : Method) (path : String) (r : Route)
    (h : matchRoute m path = some r)
    (hk : r = .userList ∨ r = .userCreate ∨ ∃ userId, r = .userById userId) :
    underUser path = true := by
  cases m with
  | GET => exact underUser_of_matchGet path r h hk
  | HEAD => exact underUser_of_matchGet path r h hk
  | POST =>
    simp only [matchRoute, matchPost] at h
    split at h
    · rename_i hd
      exact underUser_of_detectionPath path hd
    · exact absurd h (by simp)
  | other n => simp [matchRoute] at h

theorem recoverMw_postUser (s : Store) (req : Request) (rnd : RandRead) :
    recoverMw (postUser s req rnd) = postUser s req rnd := by
  cases hb : BodyParser req.body with
  | error e => simp [postUser, hb, recoverMw]
  | ok p =>
    by_cases he : validateStruct (userCreateRequestFields p) = []
    · rw [postUser_of_no_errors s req rnd p hb he]
      rfl
    · rw [postUser_of_errors s req rnd p hb he]
      rfl

theorem recoverMw_runRoute (r : Route) (s : Store) (req : Request) (rnd : RandRead)
    (hk : r = .userList ∨ r = .userCreate ∨ ∃ userId, r = .userById userId) :
    recoverMw (runRoute r s req rnd) = runRoute r s req rnd := by
  rcases hk with h | h | ⟨userId, h⟩
  · subst h
    cases s <;> rfl
  · subst h
    exact recoverMw_postUser s req rnd
  · subst h
    rfl

/-- C6: for every request dispatched to one of the routes under `/user`
(`GET /user`, `POST /user`, `GET /user/:userId`): with the `X-CorrelationId`
header absent or empty the response is the middleware's 400 and the store is
unchanged, whatever the route handler would do; with a value that
`uuid.Parse` rejects (such as `abc`) likewise; and with a value that it accepts
(such as `3fa85f64-5717-4562-b3fc-2c963f66afa6`) the outcome is exactly the
outcome of the route handler. -/
theorem correlation_gate (s : Store) (req : Request) (rnd : RandRead) (r : Route)
    (hr : matchRoute req.method req.path = some r)
    (hk : r = .userList ∨ r = .userCreate ∨ ∃ userId, r = .userById userId) :
    (req.correlationId = none ∨ req.correlationId = some "" →
      serve s req rnd =
        some ({ status := 400, body := .jsonString "You have to send correlationId" }, s)) ∧
    (∀ hdr, req.correlationId = some hdr → hdr ≠ "" → uuidParse hdr = false →
      serve s req rnd =
        some ({ status := 400, body := .jsonString "CorrelationId is must be guid" }, s)) ∧
    (∀ hdr, req.correlationId = some hdr → uuidParse hdr = true →
      handle s req rnd = runRoute r s req rnd ∧
      serve s req rnd = respond (runRoute r s req rnd)) ∧
    uuidParse "abc" = false ∧
    uuidParse "3fa85f64-5717-4562-b3fc-2c963f66afa6" = true := by
  have hu := underUser_of_matchRoute req.method req.path r hr hk
  refine ⟨?_, ?_, ?_, by decide, by decide⟩
  · intro h
    have hg : req.correlationId.getD "" = "" := by
      rcases h with h | h <;> simp [h]
    simp [serve, handle, loggerMw, hu, correlationMw, hg, respond]
  · intro hdr hc hne hp
    simp [serve, handle, loggerMw, hu, correlationMw, hc, hne, hp, respond]
  · intro hdr hc hp
    have hh : handle s req rnd = runRoute r s req rnd := by
      simp only [handle, loggerMw, hu, if_true, routes, hr]
      rw [correlationMw_of_parse req s _ hdr hc hp, recoverMw_runRoute r s req rnd hk]
    exact ⟨hh, by rw [serve, hh]⟩

/-- C6 at a concrete request: `GET /user` on the empty store. -/
theorem correlation_gate_witness :
    (matchRoute .GET "/user" = some .userList) ∧
    ((none : Option String) = none ∨ (none : Option String) = some "" →
      serve initialStore (getUsersRequest none .unsupported) none =
        some ({ status := 400, body := .jsonString "You have to send correlationId" },
              initialStore)) ∧
    (∀ hdr, (none : Option String) = some hdr → hdr ≠ "" → uuidParse hdr = false →
      serve initialStore (getUsersRequest none .unsupported) none =
        some ({ status := 400, body := .jsonString "CorrelationId is must be guid" },
              initialStore)) ∧
    (∀ hdr, (none : Option String) = some hdr → uuidParse hdr = true →
      handle initialStore (getUsersRequest none .unsupported) none =
        runRoute .userList initialStore (getUsersRequest none .unsupported) none ∧
      serve initialStore (getUsersRequest none .unsupported) none =
        respond (runRoute .userList initialStore (getUsersRequest none .unsupported) none)) ∧
    uuidParse "abc" = false ∧
    uuidParse "3fa85f64-5717-4562-b3fc-2c963f66afa6" = true :=
  ⟨by decide,
   correlation_gate initialStore (getUsersRequest none .unsupported) none .userList
     (by decide) (Or.inl rfl)⟩

set_option maxRecDepth 100000 in
theorem maskByte8_bits (b : Fin 256) :
    (maskByte8 b).val / 64 = 2 ∧ (maskByte8 b).val % 64 = b.val % 64 := by
  revert b
  decide

set_option maxRecDepth 100000 in
theorem maskByte6_bits (b : Fin 256) :
    (maskByte6 b).val / 16 = 4 ∧ (maskByte6 b).val % 16 = b.val % 16 := by
  revert b
  decide

theorem maskUUID_at_8 (u : Bytes16) : maskUUID u 8 = maskByte8 (u 8) := by
  simp [maskUUID, Function.update]

theorem maskUUID_at_6 (u : Bytes16) : maskUUID u 6 = maskByte6 (u 6) := by
  simp [maskUUID, Function.update]

/-- C10 (as amended): the masking in `GenerateUUID` does produce the standard
layout.  For all 16 random bytes, after the two assignments the top two bits
of byte 8 are 10 (the RFC 4122 variant) and the high nibble of byte 6 is 0100
(version 4); the remaining bits of these two bytes and all other bytes are the
random ones. -/
theorem uuid_masks_give_version4_layout (u : Bytes16) :
    (maskUUID u 8).val / 64 = 2 ∧ (maskUUID u 6).val / 16 = 4 ∧
    (maskUUID u 8).val % 64 = (u 8).val % 64 ∧ (maskUUID u 6).val % 16 = (u 6).val % 16 ∧
    ∀ i : Fin 16, i ≠ 8 → i ≠ 6 → maskUUID u i = u i := by
  rw [maskUUID_at_8, maskUUID_at_6]
  refine ⟨(maskByte8_bits _).1, (maskByte6_bits _).1, (maskByte8_bits _).2,
    (maskByte6_bits _).2, ?_⟩
  intro i h8 h6
  simp [maskUUID, Function.update, h8, h6]

/-- C10 as stated is false: there are no 16 bytes for which, after the two
assignments, the top two bits of byte 8 differ from 10 or the high nibble of
byte 6 differs from 0100. -/
theorem uuid_masks_counterexample :
    ¬ ∃ u : Bytes16, (maskUUID u 8).val / 64 ≠ 2 ∨ (maskUUID u 6).val / 16 ≠ 4 := by
  rintro ⟨u, h | h⟩
  · rw [maskUUID_at_8] at h
    exact h (maskByte8_bits _).1
  · rw [maskUUID_at_6] at h
    exact h (maskByte6_bits _).1

theorem traverseField_eq (name : String) (v : Value) (tags : List VTag) :
    traverseField name v tags =
      (tags.filter (fun t => !t.holds v)).head?.map
        (fun t => { field := name, tag := t.name, param := t.param, value := v }) := by
  induction tags with
  | nil => rfl
  | cons t ts ih =>
    by_cases h : t.holds v = true
    · simp [traverseField, h, ih]
    · simp [traverseField, h]

theorem validateStruct_map_customOf (fields : List VField) :
    (validateStruct fields).map customOf =
      fields.filterMap (fun f => (failingTags f).head?.map (violationOf f)) := by
  unfold validateStruct
  rw [List.map_filterMap]
  congr 1
  funext f
  rw [traverseField_eq]
  simp only [failingTags, Option.map_map]
  rfl

theorem goElems_Validate (r : UserCreateRequest) :
    goElems (Validate r) = (validateStruct (userCreateRequestFields r)).map customOf := by
  rw [Validate_eq]
  by_cases h : validateStruct (userCreateRequestFields r) = []
  · simp [h, goElems]
  · simp [h, goElems]

theorem Validate_eq_none_iff (r : UserCreateRequest) :
    Validate r = none ↔ validateStruct (userCreateRequestFields r) = [] := by
  rw [Validate_eq]
  by_cases h : validateStruct (userCreateRequestFields r) = [] <;> simp [h]

theorem validateStruct_eq_nil_iff (fields : List VField) :
    validateStruct fields = [] ↔ ∀ f ∈ fields, ∀ t ∈ f.tags, t.holds f.value = true := by
  unfold validateStruct
  induction fields with
  | nil => simp
  | cons f fs ih =>
    rw [List.filterMap_cons, traverseField_eq]
    cases hf : List.filter (fun t => !t.holds f.value) f.tags with
    | nil =>
      simp only [List.head?_nil, Option.map_none', ih, List.mem_cons, forall_eq_or_imp]
      have hall : ∀ t ∈ f.tags, t.holds f.value = true := by
        intro t ht
        by_contra hc
        have hmem : t ∈ List.filter (fun t => !t.holds f.value) f.tags := by
          simp [List.mem_filter, ht, hc]
        rw [hf] at hmem
        simp at hmem
      exact ⟨fun h => ⟨hall, h⟩, fun h => h.2⟩
    | cons t ts =>
      have hm : t ∈ List.filter (fun t => !t.holds f.value) f.tags := by simp [hf]
      simp only [List.mem_filter] at hm
      simp only [List.head?_cons, Option.map_some', List.mem_cons, forall_eq_or_imp]
      constructor
      · intro h
        exact absurd h (by simp)
      · intro h
        have := h.1 t hm.1
        simp [this] at hm

theorem violations_eq_nil_iff (fields : List VField) :
    fields.flatMap (fun f => (failingTags f).map (violationOf f)) = [] ↔
      ∀ f ∈ fields, ∀ t ∈ f.tags, t.holds f.value = true := by
  induction fields with
  | nil => simp
  | cons f fs ih =>
    simp only [List.flatMap_cons, List.append_eq_nil, ih, List.mem_cons, forall_eq_or_imp,
      List.map_eq_nil_iff, failingTags, List.filter_eq_nil_iff]
    simp

theorem first_sublist_all (fields : List VField) :
    (fields.filterMap (fun f => (failingTags f).head?.map (violationOf f))).Sublist
      (fields.flatMap (fun f => (failingTags f).map (violationOf f))) := by
  induction fields with
  | nil => simp
  | cons f fs ih =>
    rw [List.filterMap_cons, List.flatMap_cons]
    cases failingTags f with
    | nil => simpa using ih
    | cons t ts =>
      simp only [List.head?_cons, Option.map_some', List.map_cons, List.cons_append]
      exact List.Sublist.cons₂ _ (List.sublist_append_of_sublist_right ih)

theorem first_names_sublist (fields : List VField) :
    ((fields.filterMap (fun f => (failingTags f).head?.map (violationOf f))).map
      (fun v => v.Field)).Sublist (fields.map (fun f => f.name)) := by
  induction fields with
  | nil => simp
  | cons f fs ih =>
    rw [List.filterMap_cons]
    cases (failingTags f).head? with
    | none => simpa using List.Sublist.cons _ ih
    | some t => simpa [violationOf] using ih

/-- C8 (as amended): for every payload, `Validate` returns one violation for each
field that fails at least one of its declared constraints, namely for the first
failing constraint in the order the tags are written, carrying the field name,
that tag, its parameter and the offending value; the violations follow the
declaration order FirstName, LastName, Email, Password, Age with each field
at most once and are a sublist of the per-constraint violations; and it returns
no violations (the nil slice) exactly when every declared constraint passes. -/
theorem validate_reports_first_failure_per_field (r : UserCreateRequest) :
    goElems (Validate r) = firstViolationPerField r ∧
    (firstViolationPerField r).Sublist (violationsPerConstraint r) ∧
    ((goElems (Validate r)).map (fun v => v.Field)).Sublist
      ["FirstName", "LastName", "Email", "Password", "Age"] ∧
    (Validate r = none ↔
      ∀ f ∈ userCreateRequestFields r, ∀ t ∈ f.tags, t.holds f.value = true) ∧
    (Validate r = none ↔ violationsPerConstraint r = []) ∧
    (userCreateRequestFields r).map (fun f => (f.name, f.tags)) =
      [("FirstName", [.required, .min 2]), ("LastName", [.required]), ("Email", [.required]),
       ("Password", [.required, .min 8, .max 16]), ("Age", [.required, .acceptAge])] := by
  have h1 : goElems (Validate r) = firstViolationPerField r := by
    rw [goElems_Validate, validateStruct_map_customOf]
    rfl
  refine ⟨h1, first_sublist_all _, ?_, ?_, ?_, rfl⟩
  · rw [h1]
    exact first_names_sublist (userCreateRequestFields r)
  · rw [Validate_eq_none_iff, validateStruct_eq_nil_iff]
  · rw [Validate_eq_none_iff, validateStruct_eq_nil_iff]
    exact (violations_eq_nil_iff _).symm

/-- C8 as stated fails: the all-zero payload fails eight declared constraints
(required and min on FirstName, required on LastName and Email, required and
min on Password, required and acceptAge on Age) but `Validate` returns five
violations, one per field, each for `required`. -/
theorem validate_per_constraint_counterexample :
    (violationsPerConstraint zeroPayload).length = 8 ∧
    goLen (Validate zeroPayload) = 5 ∧
    (goElems (Validate zeroPayload)).map (fun v => (v.Field, v.Tag)) =
      [("FirstName", "required"), ("LastName", "required"), ("Email", "required"),
       ("Password", "required"), ("Age", "required")] ∧
    goElems (Validate zeroPayload) ≠ violationsPerConstraint zeroPayload := by
  decide

theorem respond_store (out : Result × Store) (resp : Response) (s1 : Store)
    (h : respond out = some (resp, s1)) : s1 = out.2 := by
  rcases out with ⟨res, st⟩
  cases res <;> simp [respond] at h <;> simp [h]

theorem recoverMw_store (out : Result × Store) : (recoverMw out).2 = out.2 := by
  rcases out with ⟨res, st⟩
  cases res <;> rfl

theorem postUser_store (s : Store) (req : Request) (rnd : RandRead) :
    (postUser s req rnd).2 = s ∨ ∃ r, (postUser s req rnd).2 = goAppend s r := by
  cases hb : BodyParser req.body with
  | error e => exact Or.inl (by simp [postUser, hb])
  | ok p =>
    by_cases he : validateStruct (userCreateRequestFields p) = []
    · rw [postUser_of_no_errors s req rnd p hb he]
      exact Or.inr ⟨_, rfl⟩
    · rw [postUser_of_errors s req rnd p hb he]
      exact Or.inl rfl

theorem routes_store (s : Store) (req : Request) (rnd : RandRead) :
    (routes s req rnd).2 = s ∨ ∃ r, (routes s req rnd).2 = goAppend s r := by
  unfold routes
  cases matchRoute req.method req.path with
  | none => exact Or.inl rfl
  | some r =>
    cases r with
    | panic => exact Or.inl rfl
    | root => exact Or.inl rfl
    | userById userId => exact Or.inl rfl
    | userCreate => exact postUser_store s req rnd
    | userList =>
      refine Or.inl ?_
      simp only [runRoute, getUsers]
      split <;> rfl

theorem handle_store (s : Store) (req : Request) (rnd : RandRead) :
    (handle s req rnd).2 = s ∨ ∃ r, (handle s req rnd).2 = goAppend s r := by
  have hr := routes_store s req rnd
  rw [← recoverMw_store] at hr
  unfold handle loggerMw
  split
  · unfold correlationMw
    simp only
    split
    · exact Or.inl rfl
    · split
      · exact Or.inl rfl
      · exact hr
  · exact hr

theorem serve_store (s : Store) (req : Request) (rnd : RandRead) (resp : Response) (s1 : Store)
    (h : serve s req rnd = some (resp, s1)) : s1 = s ∨ ∃ r, s1 = goAppend s r := by
  have h1 := respond_store _ _ _ h
  rw [h1]
  exact handle_store s req rnd

theorem reachable_nil_or_nonempty (s : Store) (h : Reachable s) :
    s = none ∨ ∃ l, s = some l ∧ l ≠ [] := by
  induction h with
  | start => exact Or.inl rfl
  | step _ hs ih =>
    rcases serve_store _ _ _ _ _ hs with h1 | ⟨r, h1⟩
    · rw [h1]
      exact ih
    · rw [h1, goAppend_eq_some]
      exact Or.inr ⟨_, rfl, by simp⟩

theorem serve_getUsers_some (l : List UserCreateResponse) (hdr : String) (body : Body)
    (rnd : RandRead) (hp : uuidParse hdr = true) :
    serve (some l) (getUsersRequest (some hdr) body) rnd =
      some ({ status := 200,
              body := .jsonUserList
                { UserCreateResponse := some l, Count := toInt32 (l.length : Int) } },
            some l) := by
  rw [serve_getUsers (some l) hdr body rnd hp]
  simp [goLen]

/-- C5 (as amended): in every store state reachable from process start, `GET
/user` with a correlation header that parses is answered 404 exactly when the
store holds zero records (so on the initial store), and otherwise 200 with
data equal to the whole store and count equal to the number of records
converted to `int32`, which is the number of records itself when that is below
2^31; the store is unchanged. -/
theorem get_users_reports_store (s : Store) (hdr : String) (body : Body) (rnd : RandRead)
    (hReach : Reachable s) (hHdr : uuidParse hdr = true) :
    ∃ resp, serve s (getUsersRequest (some hdr) body) rnd = some (resp, s) ∧
      (resp.status = 404 ↔ goLen s = 0) ∧
      (goLen s = 0 → resp = { status := 404, body := .jsonString "There is no user" }) ∧
      (goLen s ≠ 0 →
        resp = { status := 200,
                 body := .jsonUserList
                   { UserCreateResponse := s, Count := toInt32 (goLen s : Int) } }) ∧
      (goLen s < 2147483648 → toInt32 (goLen s : Int) = (goLen s : Int)) := by
  refine ⟨_, serve_getUsers s hdr body rnd hHdr, ?_, ?_, ?_, toInt32_of_lt _⟩
  · rcases reachable_nil_or_nonempty s hReach with h | ⟨l, h, hl⟩
    · subst h
      simp [goLen]
    · subst h
      simp [goLen, hl]
  · intro h0
    rcases reachable_nil_or_nonempty s hReach with h | ⟨l, h, hl⟩
    · subst h
      simp [goLen]
    · subst h
      simp [goLen] at h0
      exact absurd h0 hl
  · intro h0
    cases s with
    | none => simp [goLen] at h0
    | some l => simp

/-- C5 at concrete states: the initial store, for the 404 case. -/
theorem get_users_reports_store_witness :
    (Reachable initialStore ∧ uuidParse sampleGuid = true) ∧
    ∃ resp, serve initialStore (getUsersRequest (some sampleGuid) .unsupported) none =
        some (resp, initialStore) ∧
      (resp.status = 404 ↔ goLen initialStore = 0) ∧
      (goLen initialStore = 0 →
        resp = { status := 404, body := .jsonString "There is no user" }) ∧
      (goLen initialStore ≠ 0 →
        resp = { status := 200,
                 body := .jsonUserList
                   { UserCreateResponse := initialStore,
                     Count := toInt32 (goLen initialStore : Int) } }) ∧
      (goLen initialStore < 2147483648 →
        toInt32 (goLen initialStore : Int) = (goLen initialStore : Int)) :=
  ⟨⟨Reachable.start, by decide⟩,
   get_users_reports_store initialStore sampleGuid .unsupported none Reachable.start
     (by decide)⟩

theorem serve_sampleInput (s : Store) :
    serve s (postOf sampleInput).1 (postOf sampleInput).2 =
      some (sampleCreated, goAppend s sampleRecord) := by
  have hHdr : uuidParse sampleGuid = true := by decide
  have hb : BodyParser (postUserRequest (some sampleGuid) (.json sampleJson)).body =
      .ok samplePayload := rfl
  have he : validateStruct (userCreateRequestFields samplePayload) = [] := by decide
  have hu : GenerateUUID (some sampleBytes) = "07070707070747078707070707070707" := by decide
  show serve s (postUserRequest (some sampleGuid) (.json sampleJson)) (some sampleBytes) = _
  unfold serve
  rw [handle_postUser s sampleGuid _ _ hHdr, postUser_of_no_errors s _ _ samplePayload hb he]
  simp only [createUser, hu]
  rfl

theorem serveAll_sample_some (n : Nat) (l : List UserCreateResponse) :
    serveAll (some l) (List.replicate n (postOf sampleInput)) =
      some (List.replicate n sampleCreated, some (l ++ List.replicate n sampleRecord)) := by
  induction n generalizing l with
  | zero => simp [serveAll]
  | succ k ih =>
    rw [List.replicate_succ]
    unfold serveAll
    rw [serve_sampleInput (some l)]
    simp only [goAppend]
    rw [ih (l ++ [sampleRecord])]
    simp [List.replicate_succ]

theorem serveAll_sample (n : Nat) (hn : 0 < n) :
    serveAll initialStore (List.replicate n (postOf sampleInput)) =
      some (List.replicate n sampleCreated, recordsOf n) := by
  obtain ⟨k, rfl⟩ : ∃ k, n = k + 1 := ⟨n - 1, by omega⟩
  rw [List.replicate_succ]
  unfold serveAll
  rw [serve_sampleInput initialStore]
  simp only [goAppend, initialStore]
  rw [serveAll_sample_some k [sampleRecord]]
  simp [recordsOf, List.replicate_succ]

theorem reachable_serveAll (s s1 : Store) (reqs : List (Request × RandRead))
    (resps : List Response) (hs : Reachable s) (h : serveAll s reqs = some (resps, s1)) :
    Reachable s1 := by
  induction reqs generalizing s resps with
  | nil =>
    simp only [serveAll, Option.some.injEq, Prod.mk.injEq] at h
    rw [← h.2]
    exact hs
  | cons x xs ih =>
    obtain ⟨req, rnd⟩ := x
    unfold serveAll at h
    cases h1 : serve s req rnd with
    | none => simp [h1] at h
    | some out =>
      obtain ⟨resp, s2⟩ := out
      simp only [h1] at h
      cases h2 : serveAll s2 xs with
      | none => simp [h2] at h
      | some out2 =>
        obtain ⟨rs, s3⟩ := out2
        simp only [h2, Option.some.injEq, Prod.mk.injEq] at h
        rw [h.2] at h2
        exact ih s2 rs (Reachable.step hs h1) h2

theorem reachable_recordsOf (n : Nat) (hn : 0 < n) : Reachable (recordsOf n) :=
  reachable_serveAll initialStore (recordsOf n) _ _ Reachable.start (serveAll_sample n hn)

theorem goLen_recordsOf (n : Nat) : goLen (recordsOf n) = n := by
  simp [recordsOf, goLen]

theorem toInt32_wrap : toInt32 ((2147483648 : Nat) : Int) = -2147483648 := by
  unfold toInt32
  omega

theorem serve_getUsers_recordsOf (n : Nat) (hdr : String) (body : Body) (rnd : RandRead)
    (hp : uuidParse hdr = true) :
    serve (recordsOf n) (getUsersRequest (some hdr) body) rnd =
      some ({ status := 200,
              body := .jsonUserList
                { UserCreateResponse := recordsOf n, Count := toInt32 (n : Int) } },
            recordsOf n) := by
  have h := serve_getUsers_some (List.replicate n sampleRecord) hdr body rnd hp
  rw [List.length_replicate] at h
  exact h

/-- C5 as stated fails on the count: the store holding 2^31 sample records is
reachable, and there `GET /user` answers 200 with count -2147483648, which is
not the number of records. -/
theorem get_users_count_counterexample :
    Reachable (recordsOf 2147483648) ∧
    goLen (recordsOf 2147483648) = 2147483648 ∧
    serve (recordsOf 2147483648) (getUsersRequest (some sampleGuid) .unsupported) none =
      some ({ status := 200,
              body := .jsonUserList
                { UserCreateResponse := recordsOf 2147483648, Count := -2147483648 } },
            recordsOf 2147483648) := by
  refine ⟨reachable_recordsOf 2147483648 (by omega), goLen_recordsOf 2147483648, ?_⟩
  have h := serve_getUsers_recordsOf 2147483648 sampleGuid .unsupported none (by decide)
  rw [toInt32_wrap] at h
  exact h

theorem serveAll_posts (s : Store) (posts : List (Option String × Body × RandRead)) :
    ∃ resps s1, serveAll s (posts.map postOf) = some (resps, s1) ∧
      resps.length = posts.length ∧
      ((∀ r ∈ resps, r.status = 200) →
        ∃ recs : List UserCreateResponse, recs.length = posts.length ∧
          resps.map (fun r => r.body) = recs.map RespBody.jsonUser ∧
          s1 = recs.foldl goAppend s) := by
  induction posts generalizing s with
  | nil => exact ⟨[], s, rfl, rfl, fun _ => ⟨[], rfl, rfl, rfl⟩⟩
  | cons i rest ih =>
    obtain ⟨resp, s2, hserve, hout⟩ := serve_postUser_outcome s i.1 i.2.1 i.2.2
    obtain ⟨resps, s1, hall, hlen, hrest⟩ := ih s2
    refine ⟨resp :: resps, s1, ?_, by simp [hlen], ?_⟩
    · simp only [List.map_cons, serveAll, postOf, hserve]
      have hall2 : serveAll s2 (List.map postOf rest) = some (resps, s1) := hall
      simp only [postOf] at hall2
      rw [hall2]
    · intro h200
      have hhead : resp.status = 200 := h200 resp (by simp)
      have htail : ∀ r ∈ resps, r.status = 200 := fun r hr => h200 r (by simp [hr])
      obtain ⟨recs, hrl, hbodies, hs1⟩ := hrest htail
      rcases hout with ⟨-, r, hbody, hs2⟩ | ⟨hne, -⟩
      · refine ⟨r :: recs, by simp [hrl], by simp [hbody, hbodies], ?_⟩
        rw [hs1, hs2]
        rfl
      · exact absurd hhead hne

theorem foldl_goAppend_initial (recs : List UserCreateResponse) (h : recs ≠ []) :
    recs.foldl goAppend initialStore = some recs := by
  have := foldl_goAppend (fun x : UserCreateResponse => x) recs initialStore h
  simpa [goElems, initialStore] using this

/-- C4 (as amended): starting from the empty store, for every N with 1 ≤ N < 2^31
and every sequence of N `POST /user` requests (any headers, bodies and random
outcomes, so duplicate emails and names included), the sequence is served, and
if all N responses are 200 then a following `GET /user` with a correlation
header that parses is answered 200 with count N and data equal to the N
created records in creation order, each the record returned by its POST. -/
theorem posts_then_get_lists_in_order (posts : List (Option String × Body × RandRead))
    (hdr : String) (body : Body) (rnd : RandRead)
    (hN : posts ≠ []) (hBound : posts.length < 2147483648) (hHdr : uuidParse hdr = true) :
    ∃ resps s1, serveAll initialStore (posts.map postOf) = some (resps, s1) ∧
      resps.length = posts.length ∧
      ((∀ r ∈ resps, r.status = 200) →
        ∃ recs : List UserCreateResponse, recs.length = posts.length ∧
          resps.map (fun r => r.body) = recs.map RespBody.jsonUser ∧
          s1 = some recs ∧
          serve s1 (getUsersRequest (some hdr) body) rnd =
            some ({ status := 200,
                    body := .jsonUserList
                      { UserCreateResponse := some recs, Count := (posts.length : Int) } },
                  s1)) := by
  obtain ⟨resps, s1, hall, hlen, hrest⟩ := serveAll_posts initialStore posts
  refine ⟨resps, s1, hall, hlen, ?_⟩
  intro h200
  obtain ⟨recs, hrl, hbodies, hs1⟩ := hrest h200
  have hne : recs ≠ [] := by
    intro h
    rw [h] at hrl
    exact hN (List.length_eq_zero.mp hrl.symm)
  rw [foldl_goAppend_initial recs hne] at hs1
  refine ⟨recs, hrl, hbodies, hs1, ?_⟩
  rw [hs1, serve_getUsers_some recs hdr body rnd hHdr, hrl, toInt32_of_lt _ hBound]

/-- C4 at a concrete sequence: two creations with the same names and email. -/
theorem posts_then_get_lists_in_order_witness :
    ([sampleInput, sampleInput] ≠ [] ∧ [sampleInput, sampleInput].length < 2147483648 ∧
      uuidParse sampleGuid = true) ∧
    serveAll initialStore ([sampleInput, sampleInput].map postOf) =
      some ([sampleCreated, sampleCreated], recordsOf 2) ∧
    ∃ resps s1,
      serveAll initialStore ([sampleInput, sampleInput].map postOf) = some (resps, s1) ∧
      resps.length = [sampleInput, sampleInput].length ∧
      ((∀ r ∈ resps, r.status = 200) →
        ∃ recs : List UserCreateResponse, recs.length = [sampleInput, sampleInput].length ∧
          resps.map (fun r => r.body) = recs.map RespBody.jsonUser ∧
          s1 = some recs ∧
          serve s1 (getUsersRequest (some sampleGuid) .unsupported) none =
            some ({ status := 200,
                    body := .jsonUserList
                      { UserCreateResponse := some recs,
                        Count := ([sampleInput, sampleInput].length : Int) } },
                  s1)) :=
  ⟨⟨by simp, by simp, by decide⟩, by decide,
   posts_then_get_lists_in_order [sampleInput, sampleInput] sampleGuid .unsupported none
     (by simp) (by simp) (by decide)⟩

/-- C4 as stated fails twice.  After 2^31 successful sample creations the store
holds 2^31 records and `GET /user` answers count -2147483648; and after one
successful creation a `GET /user` without the correlation header is answered
400. -/
theorem posts_then_get_counterexample :
    serveAll initialStore (List.replicate 2147483648 (postOf sampleInput)) =
      some (List.replicate 2147483648 sampleCreated, recordsOf 2147483648) ∧
    sampleCreated.status = 200 ∧
    serve (recordsOf 2147483648) (getUsersRequest (some sampleGuid) .unsupported) none =
      some ({ status := 200,
              body := .jsonUserList
                { UserCreateResponse := recordsOf 2147483648, Count := -2147483648 } },
            recordsOf 2147483648) ∧
    serveAll initialStore [postOf sampleInput] = some ([sampleCreated], recordsOf 1) ∧
    serve (recordsOf 1) (getUsersRequest none .unsupported) none =
      some ({ status := 400, body := .jsonString "You have to send correlationId" },
            recordsOf 1) := by
  refine ⟨serveAll_sample 2147483648 (by omega), rfl, ?_, by decide, by decide⟩
  have h := serve_getUsers_recordsOf 2147483648 sampleGuid .unsupported none (by decide)
  rw [toInt32_wrap] at h
  exact h

end ForincaDev
